import Mathlib

/-!
Verification of the "Aggregation & Filter Engine" of the Nigeria kidnapping
dashboard (`src/kidnap_dashboard.py`).

The program is a Streamlit script over a pandas DataFrame loaded from
`kidnaps.csv`.  Every definition below is a shallow embedding of one pandas
expression of the script, translated statement by statement:

* a DataFrame of records is a `List Record` (pandas preserves row order);
* `df[(df['year'].isin(Y)) & (df['state'].isin(S))]` is `List.filter` with
  the conjunction of the two membership tests (lines 53-56);
* `groupby(k)[c].sum()` is: the distinct keys sorted ascending (pandas
  `groupby` sorts its keys), each paired with the sum of `c` over its rows;
* `Series.sort_values(ascending=False)` is modelled after pandas
  `nargsort`: an ascending argsort of the values followed by reversal of
  the whole index order (`indexer[::-1]`); the ascending argsort is taken
  stable, which is what numpy's default sort does on the small partitions
  produced here (insertion sort below its 16-element cutoff);
* `Series.idxmax()` returns the first key attaining the maximum and raises
  `ValueError("attempt to get argmax of an empty sequence")` on an empty
  series, modelled with `Except`;
* `pivot_table(...)[list(month_map.values())]` keeps the aggregated cells
  as `Option Nat` (`none` is pandas `NaN`) and the final column selection
  raises `KeyError` when a requested column is absent, modelled with
  `Except` carrying the missing column names;
* sums are over `Nat`: the CSV column contract makes `incidents`/`victims`
  non-negative integers, and the int64 sums of this dataset cannot overflow;
* the float average `round(total_victims / total_incidents, 1)` is modelled
  exactly over `ℚ`: an IEEE-754 binary64 quotient (round to nearest, ties
  to even, 53-bit significand) followed by CPython `round(x, 1)`, which is
  correct rounding of the binary value of `x` to one decimal digit with
  ties to even.
-/

namespace KidnapDashboard

/-- Record is one row of the source dataset `kidnaps.csv`: columns
`year:int, month:int, state:string, incidents:int≥0, victims:int≥0`. -/
structure Record where
  year : Int
  month : Nat
  state : String
  incidents : Nat
  victims : Nat
deriving DecidableEq

/-- Embedding of the `month_map` dict of line 31: the fixed 1..12 → name
mapping; `df['month'].map(month_map)` gives `NaN` (here `none`) outside
the domain. -/
def month_map : Nat → Option String
  | 1 => some "January"
  | 2 => some "February"
  | 3 => some "March"
  | 4 => some "April"
  | 5 => some "May"
  | 6 => some "June"
  | 7 => some "July"
  | 8 => some "August"
  | 9 => some "September"
  | 10 => some "October"
  | 11 => some "November"
  | 12 => some "December"
  | _ => none

/-- Embedding of `list(month_map.values())` (line 159 and the
`category_orders` of every chart): the twelve month names in calendar
order. -/
def month_names : List String :=
  ["January", "February", "March", "April", "May", "June", "July",
   "August", "September", "October", "November", "December"]

/-- Embedding of lines 53-56:
`filtered_df = df[(df['year'].isin(selected_years)) & (df['state'].isin(selected_states))]`.
Boolean-mask selection keeps exactly the rows whose mask is true, in the
original row order. -/
def applyFilters (R : List Record) (Y : List Int) (S : List String) : List Record :=
  R.filter (fun r => decide (r.year ∈ Y) && decide (r.state ∈ S))

/-- Embedding of line 68: `filtered_df['incidents'].sum()`. -/
def total_incidents (R : List Record) : Nat :=
  (R.map Record.incidents).sum

/-- Embedding of line 72: `filtered_df['victims'].sum()`. -/
def total_victims (R : List Record) : Nat :=
  (R.map Record.victims).sum

/-! Sorting machinery.  pandas sorts group keys and `sort_values` output;
both are modelled with an insertion sort over a boolean comparator, the
stable sort numpy uses below its small-array cutoff.  String keys compare
by code point, exactly Python `str` order for these uppercase tokens. -/

/-- Comparison of two characters by code point (Python string order
compares code points). -/
def charLtB (a b : Char) : Bool := Nat.blt a.toNat b.toNat

/-- Lexicographic strict order on char lists, Python `str.__lt__`. -/
def strLtAux : List Char → List Char → Bool
  | [], [] => false
  | [], _ :: _ => true
  | _ :: _, [] => false
  | a :: as, b :: bs =>
    if charLtB a b then true else if charLtB b a then false else strLtAux as bs

/-- Total order `a ≤ b` on strings as Python compares them. -/
def strLeB (a b : String) : Bool := !(strLtAux b.data a.data)

/-- Stable insertion of `a` into `l` before the first element it is
`le`-below-or-equal. -/
def insertBy (le : α → α → Bool) (a : α) : List α → List α
  | [] => [a]
  | b :: l => if le a b then a :: b :: l else b :: insertBy le a l

/-- Stable insertion sort by the boolean comparator `le`. -/
def sortBy (le : α → α → Bool) : List α → List α
  | [] => []
  | a :: l => insertBy le a (sortBy le l)

/-- Distinct group keys of `groupby('state')`, sorted ascending (pandas
`groupby(..., sort=True)` default). -/
def statesOf (R : List Record) : List String :=
  sortBy strLeB (R.map Record.state).dedup

/-- Sum of a metric over the rows of one state group. -/
def state_sum (metric : Record → Nat) (R : List Record) (s : String) : Nat :=
  ((R.filter (fun r => r.state == s)).map metric).sum

/-- Embedding of `filtered_df.groupby('state')[metric].sum()` (lines 80,
131, 142): each distinct state, ascending, with its summed metric. -/
def groupby_state_sum (metric : Record → Nat) (R : List Record) : List (String × Nat) :=
  (statesOf R).map (fun s => (s, state_sum metric R s))

/-- pandas `Series.idxmax` scan: after the head, a later key replaces the
best only when strictly greater, so the first key attaining the maximum is
returned. -/
def idxmaxAux (best : String × Nat) : List (String × Nat) → String
  | [] => best.1
  | p :: l => if best.2 < p.2 then idxmaxAux p l else idxmaxAux best l

/-- Embedding of `Series.idxmax()`: on an empty series pandas raises
`ValueError("attempt to get argmax of an empty sequence")`. -/
def idxmax : List (String × Nat) → Except String String
  | [] => Except.error "attempt to get argmax of an empty sequence"
  | p :: l => Except.ok (idxmaxAux p l)

/-- Embedding of line 80:
`max_state = filtered_df.groupby('state')['incidents'].sum().idxmax()`.
The script wraps this in no try/except: an `error` value is an uncaught
`ValueError` that aborts the script run. -/
def max_state (R : List Record) : Except String String :=
  idxmax (groupby_state_sum Record.incidents R)

/-- Embedding of `Series.sort_values(ascending=False)` (lines 131, 142)
after pandas `nargsort`: an ascending argsort of the values — stable here,
numpy insertion sort below its small-array cutoff — then reversal of the
whole order (`indexer = indexer[::-1]`). -/
def sort_values_desc (l : List (String × Nat)) : List (String × Nat) :=
  (sortBy (fun a b => decide (a.2 ≤ b.2)) l).reverse

/-- Embedding of line 131:
`state_incidents = filtered_df.groupby('state')['incidents'].sum().sort_values(ascending=False)`. -/
def state_incidents (R : List Record) : List (String × Nat) :=
  sort_values_desc (groupby_state_sum Record.incidents R)

/-- Embedding of line 142, the same pipeline for victims. -/
def state_victims (R : List Record) : List (String × Nat) :=
  sort_values_desc (groupby_state_sum Record.victims R)

/-! The claims C1 and C9 about the Filter Engine. -/

/-- C1. For every record set and selections, the filter keeps the relative
input order (it is a sublist of the input), contains exactly the records
with `year ∈ Y ∧ state ∈ S` — with multiplicity (`count`) and as
membership — is deterministic (a pure function: equal arguments give the
same output sequence), and an empty selection on either axis gives the
empty view, without error and without selecting all records. -/
theorem applyFilters_exact (R : List Record) (Y : List Int) (S : List String) :
    (applyFilters R Y S).Sublist R
    ∧ (∀ r, (applyFilters R Y S).count r =
        if r.year ∈ Y ∧ r.state ∈ S then R.count r else 0)
    ∧ (∀ r, r ∈ applyFilters R Y S ↔ r ∈ R ∧ r.year ∈ Y ∧ r.state ∈ S)
    ∧ (∀ R2 Y2 S2, R = R2 → Y = Y2 → S = S2 → applyFilters R Y S = applyFilters R2 Y2 S2)
    ∧ applyFilters R [] S = [] ∧ applyFilters R Y [] = [] := by
  refine ⟨List.filter_sublist R, fun r => ?_, fun r => ?_, ?_, ?_, ?_⟩
  · by_cases h : r.year ∈ Y ∧ r.state ∈ S
    · rw [if_pos h]
      exact List.count_filter (by simp [h.1, h.2])
    · rw [if_neg h]
      refine List.count_eq_zero.2 (fun hmem => h ?_)
      have := (List.mem_filter.1 hmem).2
      simpa using this
  · constructor
    · intro hmem
      have h1 := List.mem_filter.1 hmem
      have h2 : r.year ∈ Y ∧ r.state ∈ S := by simpa using h1.2
      exact ⟨h1.1, h2.1, h2.2⟩
    · intro ⟨h1, h2, h3⟩
      exact List.mem_filter.2 ⟨h1, by simp [h2, h3]⟩
  · intro R2 Y2 S2 h1 h2 h3
    rw [h1, h2, h3]
  · simp [applyFilters]
  · simp [applyFilters]

/-- C9. The Filter Engine is idempotent: re-filtering the filtered view
with the same selections changes nothing. -/
theorem applyFilters_idempotent (R : List Record) (Y : List Int) (S : List String) :
    applyFilters (applyFilters R Y S) Y S = applyFilters R Y S := by
  simp [applyFilters, List.filter_filter]

/-- Scenario 1 record set of the spec, §8:
R = [(2024,1,"FCT",5,10), (2024,2,"FCT",3,6), (2025,1,"KADUNA",7,14)]. -/
def scenario_records : List Record :=
  [⟨2024, 1, "FCT", 5, 10⟩, ⟨2024, 2, "FCT", 3, 6⟩, ⟨2025, 1, "KADUNA", 7, 14⟩]

/-! Facts about the sorting machinery: `insertBy`/`sortBy` permute their
input and sort it whenever the comparator is total and transitive. -/

theorem insertBy_perm (le : α → α → Bool) (a : α) (l : List α) :
    (insertBy le a l).Perm (a :: l) := by
  induction l with
  | nil => simp [insertBy]
  | cons b l ih =>
    by_cases h : le a b = true
    · rw [insertBy, if_pos h]
    · rw [insertBy, if_neg h]
      exact (ih.cons b).trans (List.Perm.swap a b l)

theorem sortBy_perm (le : α → α → Bool) (l : List α) : (sortBy le l).Perm l := by
  induction l with
  | nil => simp [sortBy]
  | cons a l ih =>
    rw [sortBy]
    exact (insertBy_perm le a (sortBy le l)).trans (ih.cons a)

theorem insertBy_pairwise {α : Type} {le : α → α → Bool}
    (htot : ∀ a b, le a b = false → le b a = true)
    (htr : ∀ a b c, le a b = true → le b c = true → le a c = true)
    (a : α) (l : List α) (h : l.Pairwise (fun x y => le x y = true)) :
    (insertBy le a l).Pairwise (fun x y => le x y = true) := by
  induction l with
  | nil => simp [insertBy]
  | cons b l ih =>
    rw [List.pairwise_cons] at h
    by_cases hab : le a b = true
    · rw [insertBy, if_pos hab]
      refine List.pairwise_cons.2 ⟨?_, List.pairwise_cons.2 ⟨h.1, h.2⟩⟩
      intro x hx
      rcases List.mem_cons.1 hx with rfl | hx
      · exact hab
      · exact htr a b x hab (h.1 x hx)
    · rw [insertBy, if_neg hab]
      refine List.pairwise_cons.2 ⟨?_, ih h.2⟩
      intro x hx
      rcases List.mem_cons.1 ((insertBy_perm le a l).mem_iff.1 hx) with heq | hx2
      · simp only [Bool.not_eq_true] at hab
        rw [heq]
        exact htot a b hab
      · exact h.1 x hx2

theorem sortBy_pairwise {α : Type} {le : α → α → Bool}
    (htot : ∀ a b, le a b = false → le b a = true)
    (htr : ∀ a b c, le a b = true → le b c = true → le a c = true)
    (l : List α) : (sortBy le l).Pairwise (fun x y => le x y = true) := by
  induction l with
  | nil => simp [sortBy]
  | cons a l ih =>
    rw [sortBy]
    exact insertBy_pairwise htot htr a _ ih

/-- C4 (amended). Each bar-chart series is the per-state summed metric,
sorted so the values are in descending (non-increasing) order, as a
permutation of the ascending groupby totals; the computation is a pure
function, hence deterministic.  Ties are NOT broken by original
state-name order: the descending sort reverses an ascending sort of the
whole series (see the counterexample), so tied states come out in
reversed groupby order. -/
theorem state_totals_sorted_desc (R : List Record) :
    (state_incidents R).Pairwise (fun a b => b.2 ≤ a.2)
    ∧ (state_incidents R).Perm (groupby_state_sum Record.incidents R)
    ∧ (state_victims R).Pairwise (fun a b => b.2 ≤ a.2)
    ∧ (state_victims R).Perm (groupby_state_sum Record.victims R) := by
  have hs : ∀ l : List (String × Nat),
      (sort_values_desc l).Pairwise (fun a b => b.2 ≤ a.2) ∧ (sort_values_desc l).Perm l := by
    intro l
    constructor
    · rw [sort_values_desc, List.pairwise_reverse]
      have hsorted := @sortBy_pairwise (String × Nat)
        (fun a b => decide (a.2 ≤ b.2))
        (fun a b h => by simp at h ⊢; omega)
        (fun a b c h1 h2 => by simp at h1 h2 ⊢; omega) l
      exact hsorted.imp (fun h => by simpa using h)
    · exact (List.reverse_perm _).trans (sortBy_perm _ l)
  exact ⟨(hs _).1, (hs _).2, (hs _).1, (hs _).2⟩

/-- C4 counterexample. Two states tied at 5 incidents: the groupby series
is [("AA",5),("BB",5)] in ascending (original) state order, the claim's
stable tie rule would keep AA first, but the code's descending sort
reverses the order and emits BB first. -/
theorem state_incidents_tie_counterexample :
    groupby_state_sum Record.incidents
        [⟨2024, 1, "AA", 5, 1⟩, ⟨2024, 1, "BB", 5, 1⟩] = [("AA", 5), ("BB", 5)]
    ∧ state_incidents [⟨2024, 1, "AA", 5, 1⟩, ⟨2024, 1, "BB", 5, 1⟩] = [("BB", 5), ("AA", 5)]
    ∧ ([("BB", 5), ("AA", 5)] : List (String × Nat)) ≠ [("AA", 5), ("BB", 5)] := by
  refine ⟨?_, ?_, ?_⟩ <;> decide

/-- C2. Evaluation of the code at the failing input: an empty state
selection empties the filtered view, and line 80's `idxmax` over the empty
grouped series raises `ValueError`.  `max_state` sits in no try/except —
the `Except.error` below is an exception the presentation layer never
catches, so the script run aborts instead of rendering a placeholder. -/
theorem max_state_empty_view_raises :
    max_state (applyFilters scenario_records [2024] []) =
      Except.error "attempt to get argmax of an empty sequence" := by
  rfl

/-- Distinct month-name column labels of
`pivot_table(index='state', columns='month_name', values='incidents', aggfunc='sum')`:
the month_name values present in the filtered view (a row whose month is
outside 1..12 has NaN month_name and is dropped by the aggregation). -/
def pivot_columns (R : List Record) : List String :=
  (R.filterMap (fun r => month_map r.month)).dedup

/-- Row labels of the pivot: the distinct states among rows with a valid
month_name, sorted ascending as pandas sorts the index. -/
def pivot_rows (R : List Record) : List String :=
  sortBy strLeB ((R.filter (fun r => (month_map r.month).isSome)).map Record.state).dedup

/-- One aggregated pivot cell: the summed incidents of the (state, month
name) group, or `none` — pandas NaN — when the filtered view has no row
for that combination; `pivot_table` is called without `fill_value`, so a
missing cell stays NaN, not 0. -/
def pivot_cell (R : List Record) (s mn : String) : Option Nat :=
  let rows := R.filter (fun r => r.state == s && month_map r.month == some mn)
  if rows.isEmpty then none else some ((rows.map Record.incidents).sum)

/-- Embedding of lines 154-159: the pivot table followed by the column
selection `[list(month_map.values())]`.  Selecting a list of labels
raises `KeyError` when any requested column is absent from the pivot —
which happens whenever some month has no row at all in the filtered
view; the `error` carries the missing column names. -/
def heatmap_data (R : List Record) :
    Except (List String) (List (String × List (Option Nat))) :=
  let missing := month_names.filter (fun n => !(pivot_columns R).contains n)
  if missing.isEmpty then
    Except.ok ((pivot_rows R).map (fun s => (s, month_names.map (fun mn => pivot_cell R s mn))))
  else Except.error missing

/-- C3. Evaluation of the code at Scenario 4's data (the Scenario 1
records filtered to Y={2024}, S={"FCT"}): only January and February occur
in the filtered view, so the month-order column selection of line 159
raises `KeyError` on the ten absent month columns instead of producing a
zero-filled row. -/
theorem heatmap_scenario4_raises :
    heatmap_data (applyFilters scenario_records [2024] ["FCT"]) =
      Except.error ["March", "April", "May", "June", "July", "August",
        "September", "October", "November", "December"] := by
  rfl

/-- CsvRow is one exported row of `filtered_df.to_csv(index=False)`: the
DataFrame columns in their deterministic order — the five schema columns
year, month, state, incidents, victims, plus the derived `month_name`
column appended by line 36. -/
structure CsvRow where
  year : Int
  month : Nat
  state : String
  incidents : Nat
  victims : Nat
  month_name : Option String
deriving DecidableEq

/-- Embedding of line 203, `filtered_df.to_csv(index=False)`: one CSV row
per filtered record, in the filtered view's own row order (the textual
byte encoding of cells is CSV I/O mechanics, out of scope per spec §1). -/
def to_csv_rows (R : List Record) : List CsvRow :=
  R.map (fun r => ⟨r.year, r.month, r.state, r.incidents, r.victims, month_map r.month⟩)

/-- Ascending lexicographic comparison on the key (year, month, state),
the pandas multi-column sort order of line 198. -/
def recKeyLeB (a b : Record) : Bool :=
  if a.year < b.year then true
  else if b.year < a.year then false
  else if a.month < b.month then true
  else if b.month < a.month then false
  else strLeB a.state b.state

/-- Embedding of line 198, the Raw Data table:
`filtered_df.sort_values(['year', 'month', 'state'])`. -/
def raw_data_table (R : List Record) : List Record :=
  sortBy recKeyLeB R

/-- Embedding of the Dataset Loader's column contract (lines 24-28)
applied to exported rows: `pd.read_csv` reads back the required columns
year, month, state, incidents, victims; any extra column — here the
derived month_name — is ignored. -/
def parse_rows (rows : List CsvRow) : List Record :=
  rows.map (fun c => ⟨c.year, c.month, c.state, c.incidents, c.victims⟩)

/-- C5 counterexample. A filtered view whose rows arrive with 2025 before
2024: line 203 serializes `filtered_df` itself, in input order, so the
exported year column reads [2025, 2024] — not the claimed ascending
(year, month, state) order, and different from the sorted Raw Data table
of line 198. -/
theorem csv_export_order_counterexample :
    (to_csv_rows [⟨2025, 1, "KADUNA", 7, 14⟩, ⟨2024, 1, "FCT", 5, 10⟩]).map CsvRow.year
      = [2025, 2024]
    ∧ to_csv_rows [⟨2025, 1, "KADUNA", 7, 14⟩, ⟨2024, 1, "FCT", 5, 10⟩]
        ≠ to_csv_rows (raw_data_table [⟨2025, 1, "KADUNA", 7, 14⟩, ⟨2024, 1, "FCT", 5, 10⟩])
    ∧ ¬ ((2025 : Int) ≤ 2024) := by
  refine ⟨by decide, by decide, by decide⟩

/-- C5 (amended). The CSV export emits exactly the filtered view's rows in
the filtered view's own order — row i of the export is row i of the view,
and the export is a permutation of the sorted Raw Data table — with the
deterministic column tuple (year, month, state, incidents, victims,
month_name): the derived month_name column is consistently included,
populated by the fixed month mapping. -/
theorem to_csv_rows_spec (R : List Record) :
    (to_csv_rows R).Perm (to_csv_rows (raw_data_table R))
    ∧ (∀ i : Nat, (to_csv_rows R)[i]? = (R[i]?).map
        (fun r => (⟨r.year, r.month, r.state, r.incidents, r.victims, month_map r.month⟩ : CsvRow)))
    ∧ (∀ c ∈ to_csv_rows R, c.month_name = month_map c.month) := by
  refine ⟨?_, ?_, ?_⟩
  · exact (((sortBy_perm recKeyLeB R).map _).symm :)
  · intro i
    simp [to_csv_rows, List.getElem?_map]
  · intro c hc
    rcases List.mem_map.1 hc with ⟨r, _, rfl⟩
    rfl

/-- C7. Round trip: parsing the exported rows under the loader's column
contract recovers the record list exactly — in particular as a multiset —
the derived month_name column being dropped by the parse. -/
theorem csv_round_trip (R : List Record) :
    parse_rows (to_csv_rows R) = R
    ∧ Multiset.ofList (parse_rows (to_csv_rows R)) = Multiset.ofList R := by
  have h : parse_rows (to_csv_rows R) = R := by
    induction R with
    | nil => rfl
    | cons r l ih =>
      simp only [to_csv_rows, List.map_cons, parse_rows] at ih ⊢
      rw [ih]
  exact ⟨h, by rw [h]⟩

/-- Group sum for one (year, month) key of the monthly groupby of lines
88-96: the summed metric over the filtered rows of that year and month. -/
def monthly_sum (metric : Record → Nat) (y : Int) (m : Nat) (R : List Record) : Nat :=
  ((R.filter (fun r => r.year == y && r.month == m)).map metric).sum

/-- One candidate series point for month index i (month i+1):
`groupby(['year', 'month_name', 'month'])` emits a key only when the
filtered view has a row for it (sparse, no zero-fill), so an absent month
yields `none`; a month outside 1..12 has NaN month_name and is dropped by
the groupby. -/
def monthly_entry (metric : Record → Nat) (y : Int) (R : List Record) (i : Nat) :
    Option (String × Nat) :=
  match month_map (i + 1) with
  | some name =>
    if R.any (fun r => r.year == y && r.month == i + 1) then
      some (name, monthly_sum metric y (i + 1) R)
    else none
  | none => none

/-- Embedding of the per-year monthly line series of lines 88-96: the
grouped sums of the months present in the filtered view, arranged on the
chart axis in calendar order by
`category_orders={"month_name": list(month_map.values())}`. -/
def monthly_series (metric : Record → Nat) (y : Int) (R : List Record) :
    List (String × Nat) :=
  (List.range 12).filterMap (monthly_entry metric y R)

theorem month_map_range_isSome : ∀ i ∈ List.range 12, (month_map (i + 1)).isSome = true := by
  decide

theorem month_map_inj_on_range :
    ∀ i ∈ List.range 12, ∀ j ∈ List.range 12,
      month_map (i + 1) = month_map (j + 1) → i = j := by
  decide

theorem month_names_eq_filterMap :
    (List.range 12).filterMap (fun i => month_map (i + 1)) = month_names := by
  decide

theorem filterMap_sublist_of_imp {α β : Type} {f g : α → Option β} :
    ∀ l : List α, (∀ a ∈ l, ∀ b, f a = some b → g a = some b) →
      (l.filterMap f).Sublist (l.filterMap g) := by
  intro l
  induction l with
  | nil => intro _; simp
  | cons a l ih =>
    intro h
    rw [List.filterMap_cons, List.filterMap_cons]
    cases hfa : f a with
    | none =>
      cases hga : g a with
      | none => exact ih (fun x hx => h x (List.mem_cons_of_mem a hx))
      | some c => exact (ih (fun x hx => h x (List.mem_cons_of_mem a hx))).cons c
    | some b =>
      rw [h a (List.mem_cons_self a l) b hfa]
      exact (ih (fun x hx => h x (List.mem_cons_of_mem a hx))).cons₂ b

/-- C8. The monthly series is sparse and calendar-ordered: its month
labels are a sublist of the calendar month list (present months keep
calendar order on the chart axis); a month of the fixed 1..12 domain
contributes a point — carrying its summed metric — exactly when the
filtered view has a record for it, so absent months are absent, not
zero-filled; and on Scenario 3's data the 2024 incidents series is
exactly [("January",5), ("February",3)]. -/
theorem monthly_series_spec (metric : Record → Nat) (y : Int) (R : List Record) :
    ((monthly_series metric y R).map Prod.fst).Sublist month_names
    ∧ (∀ m, 1 ≤ m → m ≤ 12 →
        (((month_map m).getD "", monthly_sum metric y m R) ∈ monthly_series metric y R
          ↔ ∃ r ∈ R, r.year = y ∧ r.month = m))
    ∧ monthly_series Record.incidents 2024 scenario_records
        = [("January", 5), ("February", 3)] := by
  refine ⟨?_, ?_, by decide⟩
  · have h1 : (monthly_series metric y R).map Prod.fst
        = (List.range 12).filterMap (fun i => (monthly_entry metric y R i).map Prod.fst) := by
      rw [monthly_series, List.map_filterMap]
    rw [h1, ← month_names_eq_filterMap]
    refine filterMap_sublist_of_imp _ ?_
    intro i _ b hb
    rcases hmm : month_map (i + 1) with _ | name
    · simp [monthly_entry, hmm] at hb
    · by_cases hany : R.any (fun r => r.year == y && r.month == i + 1) = true
      · simp only [monthly_entry, hmm, hany, if_true, Option.map_some'] at hb
        simpa using hb
      · simp [monthly_entry, hmm, hany] at hb
  · intro m h1 h12
    have hi : m - 1 ∈ List.range 12 := by
      rw [List.mem_range]
      omega
    have hm1 : m - 1 + 1 = m := by omega
    have hsome : (month_map m).isSome = true := by
      have h2 := month_map_range_isSome (m - 1) hi
      rwa [hm1] at h2
    rcases Option.isSome_iff_exists.1 hsome with ⟨nm, hnm⟩
    constructor
    · intro hmem
      rcases List.mem_filterMap.1 hmem with ⟨i, hir, hfi⟩
      rcases hmm : month_map (i + 1) with _ | n
      · simp [monthly_entry, hmm] at hfi
      · by_cases hany : R.any (fun r => r.year == y && r.month == i + 1) = true
        · simp only [monthly_entry, hmm, hany, if_true, Option.some.injEq, Prod.mk.injEq] at hfi
          have hname : n = nm := by
            rw [hnm] at hfi
            simpa using hfi.1
          have him : i = m - 1 := by
            refine month_map_inj_on_range i hir (m - 1) hi ?_
            rw [hm1, hmm, hnm, hname]
          rw [him, hm1] at hany
          rcases List.any_eq_true.1 hany with ⟨r, hr, hcond⟩
          have hc2 : r.year = y ∧ r.month = m := by simpa using hcond
          exact ⟨r, hr, hc2.1, hc2.2⟩
        · simp [monthly_entry, hmm, hany] at hfi
    · intro ⟨r, hr, hy, hm⟩
      have hany : R.any (fun r => r.year == y && r.month == m) = true :=
        List.any_eq_true.2 ⟨r, hr, by simp [hy, hm]⟩
      refine List.mem_filterMap.2 ⟨m - 1, hi, ?_⟩
      rw [monthly_entry, hm1, hnm, hany]
      simp [hnm]

/-- Embedding of lines 181-185: the comparison panel filters the already
filtered view by the comparison selection,
`comparison_df = filtered_df[filtered_df['state'].isin(selected_comparison_states)]`,
computed only when the comparison multiselect is non-empty. -/
def comparison_df (R : List Record) (Y : List Int) (S C : List String) : List Record :=
  (applyFilters R Y S).filter (fun r => decide (r.state ∈ C))

/-- C10. With a non-empty comparison selection, the comparison chart's
data is exactly the records satisfying the main year filter, the main
state filter and the comparison selection simultaneously; hence a
comparison state excluded from the main state filter, or a record whose
year is outside the main year filter, contributes nothing. -/
theorem comparison_df_spec (R : List Record) (Y : List Int) (S C : List String)
    (_hC : C ≠ []) :
    (∀ r, r ∈ comparison_df R Y S C ↔
      r ∈ R ∧ r.year ∈ Y ∧ r.state ∈ S ∧ r.state ∈ C)
    ∧ (∀ s, s ∉ S → ∀ r ∈ comparison_df R Y S C, r.state ≠ s)
    ∧ (∀ y2, y2 ∉ Y → ∀ r ∈ comparison_df R Y S C, r.year ≠ y2) := by
  have hmem : ∀ r, r ∈ comparison_df R Y S C ↔
      r ∈ R ∧ r.year ∈ Y ∧ r.state ∈ S ∧ r.state ∈ C := by
    intro r
    rw [comparison_df, List.mem_filter, applyFilters, List.mem_filter]
    simp [and_assoc]
  refine ⟨hmem, ?_, ?_⟩
  · intro s hs r hr heq
    exact hs (heq ▸ ((hmem r).1 hr).2.2.1)
  · intro y2 hy2 r hr heq
    exact hy2 (heq ▸ ((hmem r).1 hr).2.1)

/-- Witness for C10 at concrete inputs: with the main filters Y={2024},
S={"FCT"} and comparison selection {"FCT"}, the 2024 FCT record does feed
the comparison chart. -/
theorem comparison_df_spec_witness :
    (⟨2024, 1, "FCT", 5, 10⟩ : Record) ∈
      comparison_df scenario_records [2024] ["FCT"] ["FCT"] :=
  ((comparison_df_spec scenario_records [2024] ["FCT"] ["FCT"] (by decide)).1 _).2
    ⟨by decide, by decide, by decide, by decide⟩

/-! The average metric of lines 76-77:
`avg_victims_per_incident = round(total_victims / total_incidents, 1) if total_incidents > 0 else 0`.
The division of the two int64 sums yields an IEEE-754 binary64: the
correctly rounded (round to nearest, ties to even) 53-bit approximation
of the exact ratio.  CPython `round(x, 1)` then rounds the exact binary
value of x to one decimal digit, again with ties to even, and
`st.metric` displays that one-decimal value.  Both steps are modelled
exactly over ℚ.  The dataset's sums are far inside the 2^53
exact-integer range and the quotient far inside the normal binary64
exponent range, so int-to-float conversions are exact and
subnormal/overflow cases do not arise. -/

/-- Fuel-driven floor of the base-2 logarithm (any fuel ≥ n suffices). -/
def nlog2F : Nat → Nat → Nat
  | 0, _ => 0
  | f + 1, n => if n ≤ 1 then 0 else nlog2F f (n / 2) + 1

/-- Floor of the base-2 logarithm of a natural (0 for 0). -/
def nlog2 (n : Nat) : Nat := nlog2F n n

/-- Nearest integer to a rational, ties to even — the IEEE-754
round-to-nearest-even rule, which is also CPython round's tie rule. -/
def roundHalfEvenInt (q : ℚ) : ℤ :=
  if q - ⌊q⌋ < 1 / 2 then ⌊q⌋
  else if 1 / 2 < q - ⌊q⌋ then ⌊q⌋ + 1
  else if ⌊q⌋ % 2 = 0 then ⌊q⌋ else ⌊q⌋ + 1

/-- Binade exponent of the ratio v/i for v, i ≥ 1: the e with
2^e ≤ v/i < 2^(e+1). -/
def floorLog2Ratio (v i : Nat) : ℤ :=
  if (2 : ℚ) ^ ((nlog2 v : ℤ) - (nlog2 i : ℤ)) * i ≤ v
  then (nlog2 v : ℤ) - (nlog2 i : ℤ)
  else (nlog2 v : ℤ) - (nlog2 i : ℤ) - 1

/-- IEEE-754 binary64 quotient of two naturals: the exact ratio rounded
to 53 significant bits, round to nearest, ties to even.  v = 0 gives 0.0,
and i = 0 cannot be reached — line 76 divides only when
`total_incidents > 0`. -/
def fdiv64 (v i : Nat) : ℚ :=
  if v = 0 ∨ i = 0 then 0
  else (roundHalfEvenInt ((v : ℚ) / i * 2 ^ ((52 : ℤ) - floorLog2Ratio v i)) : ℚ)
    * 2 ^ (floorLog2Ratio v i - (52 : ℤ))

/-- Rounding a rational to one decimal digit with ties to even: CPython
`round(x, 1)` computes exactly this on the binary value of x, and it is
also the spec's "round half to even" decimal rule when applied to the
exact ratio. -/
def round1HalfEven (x : ℚ) : ℚ := ((roundHalfEvenInt (10 * x) : ℤ) : ℚ) / 10

/-- The spec's alternative decimal rule, "round half up", to one decimal
digit. -/
def round1HalfUp (x : ℚ) : ℚ := ((⌊10 * x + 1 / 2⌋ : ℤ) : ℚ) / 10

/-- Embedding of lines 76-77: the displayed average metric. -/
def avg_victims_per_incident (R : List Record) : ℚ :=
  if 0 < total_incidents R then
    round1HalfEven (fdiv64 (total_victims R) (total_incidents R))
  else 0

theorem roundHalfEvenInt_close (q : ℚ) : |(roundHalfEvenInt q : ℚ) - q| ≤ 1 / 2 := by
  have h0 : (0 : ℚ) ≤ q - ⌊q⌋ := by
    have := Int.floor_le q
    linarith
  have h1 : q - ⌊q⌋ < 1 := by
    have := Int.lt_floor_add_one q
    linarith
  by_cases hlt : q - ⌊q⌋ < 1 / 2
  · rw [roundHalfEvenInt, if_pos hlt, abs_le]
    constructor <;> linarith
  · push_neg at hlt
    by_cases hgt : 1 / 2 < q - ⌊q⌋
    · rw [roundHalfEvenInt, if_neg (by linarith), if_pos hgt, abs_le]
      constructor <;> push_cast <;> linarith
    · push_neg at hgt
      by_cases hev : ⌊q⌋ % 2 = 0
      · rw [roundHalfEvenInt, if_neg (by linarith), if_neg (by linarith), if_pos hev, abs_le]
        constructor <;> linarith
      · rw [roundHalfEvenInt, if_neg (by linarith), if_neg (by linarith), if_neg hev, abs_le]
        constructor <;> push_cast <;> linarith

theorem round1HalfEven_close (x : ℚ) : |round1HalfEven x - x| ≤ 1 / 20 := by
  have h := roundHalfEvenInt_close (10 * x)
  rw [abs_le] at h
  rw [round1HalfEven, abs_le]
  constructor <;> [linarith [h.1]; linarith [h.2]]

/-- C6 (amended). The displayed average is the sentinel 0 when
TotalIncidents = 0; otherwise it is the IEEE-754 binary64 quotient
TotalVictims/TotalIncidents rounded to one decimal digit by CPython
round — correct rounding of the binary value, ties to even — hence a
deterministic exact multiple of 1/10 within 1/20 of that binary
quotient.  Because the quotient is rounded to binary64 before the
decimal rounding, the displayed value can differ from both decimal rules
the spec offers for the exact ratio (see the counterexample at 7/20). -/
theorem avg_victims_spec (R : List Record) :
    (total_incidents R = 0 → avg_victims_per_incident R = 0)
    ∧ (0 < total_incidents R →
        avg_victims_per_incident R
            = round1HalfEven (fdiv64 (total_victims R) (total_incidents R))
          ∧ (∃ k : ℤ, avg_victims_per_incident R = (k : ℚ) / 10)
          ∧ |avg_victims_per_incident R - fdiv64 (total_victims R) (total_incidents R)|
              ≤ 1 / 20) := by
  constructor
  · intro h
    rw [avg_victims_per_incident, if_neg (by omega)]
  · intro h
    rw [avg_victims_per_incident, if_pos h]
    exact ⟨rfl, ⟨roundHalfEvenInt (10 * fdiv64 (total_victims R) (total_incidents R)), rfl⟩,
      round1HalfEven_close _⟩

/-- C6 counterexample. A filtered view with 20 incidents and 7 victims:
the exact ratio is 7/20 = 0.35, which both decimal rules the claim
allows round to 0.4 — but the binary64 value of 7/20 is
6305039478318694/2^54, slightly below 0.35, so the code displays 0.3. -/
theorem avg_rounding_rule_counterexample :
    avg_victims_per_incident [⟨2024, 1, "FCT", 20, 7⟩] = 3 / 10
    ∧ round1HalfEven ((7 : ℚ) / 20) = 4 / 10
    ∧ round1HalfUp ((7 : ℚ) / 20) = 4 / 10
    ∧ ((3 : ℚ) / 10) ≠ 4 / 10 := by
  have havg : avg_victims_per_incident [⟨2024, 1, "FCT", 20, 7⟩]
      = round1HalfEven (fdiv64 7 20) := by
    rw [avg_victims_per_incident, if_pos (by decide)]
    rfl
  have he : floorLog2Ratio 7 20 = -2 := by
    have e1 : nlog2 7 = 2 := by decide
    have e2 : nlog2 20 = 4 := by decide
    rw [floorLog2Ratio, e1, e2]
    rw [if_pos (by norm_num)]
    norm_num
  have hc7 : ((7 : ℕ) : ℚ) = 7 := by norm_num
  have hc20 : ((20 : ℕ) : ℚ) = 20 := by norm_num
  have hq1 : (7 : ℚ) / 20 * 2 ^ ((52 : ℤ) - (-2 : ℤ)) = 126100789566373888 / 20 := by
    norm_num
  have hfl : (⌊(126100789566373888 : ℚ) / 20⌋ : ℤ) = 6305039478318694 := by
    norm_num
  have hr1 : roundHalfEvenInt ((7 : ℚ) / 20 * 2 ^ ((52 : ℤ) - (-2 : ℤ)))
      = 6305039478318694 := by
    rw [roundHalfEvenInt, hq1, hfl, if_pos (by norm_num)]
  have hfd : fdiv64 7 20 = 6305039478318694 * 2 ^ ((-2 : ℤ) - 52) := by
    rw [fdiv64, if_neg (by decide), he, hc7, hc20, hr1]
    norm_num
  have hval : (6305039478318694 : ℚ) * 2 ^ ((-2 : ℤ) - 52)
      = 6305039478318694 / 18014398509481984 := by
    norm_num
  have h10 : (10 : ℚ) * (6305039478318694 / 18014398509481984)
      = 63050394783186940 / 18014398509481984 := by
    norm_num
  have hfl2 : (⌊(63050394783186940 : ℚ) / 18014398509481984⌋ : ℤ) = 3 := by
    norm_num
  have hr2 : round1HalfEven (6305039478318694 / 18014398509481984) = 3 / 10 := by
    rw [round1HalfEven, roundHalfEvenInt, h10, hfl2, if_pos (by norm_num)]
    norm_num
  have hs1 : round1HalfEven ((7 : ℚ) / 20) = 4 / 10 := by
    have hx : (10 : ℚ) * (7 / 20) = 7 / 2 := by norm_num
    have hfl3 : (⌊(7 : ℚ) / 2⌋ : ℤ) = 3 := by norm_num
    rw [round1HalfEven, roundHalfEvenInt, hx, hfl3,
      if_neg (by norm_num), if_neg (by norm_num), if_neg (by decide)]
    norm_num
  have hs2 : round1HalfUp ((7 : ℚ) / 20) = 4 / 10 := by
    rw [round1HalfUp]
    have hx : (10 : ℚ) * (7 / 20) + 1 / 2 = 4 := by norm_num
    rw [hx]
    norm_num
  refine ⟨?_, hs1, hs2, by norm_num⟩
  rw [havg, hfd, hval, hr2]

end KidnapDashboard
